import Mathlib

/-!
Verification of the training-data generator in
`scripts/generate-training-data.py`.

The script holds a static corpus of anomaly scenarios (Python dicts) and

* renders each scenario to an instruction prompt (`build_instruction`),
* renders each scenario to a canonical response (`build_output`),
* writes one JSON object per scenario to a `.jsonl` file
  (`json.dumps(entry, ensure_ascii=False)`), and
* re-reads the file, checking that the four response markers occur in
  each line's `output` field.

The embedding below mirrors those functions on a typed record.  Python
strings are modelled by `String`; the float fields (`duration`,
`expected_mean`, `expected_std`, `deviation`) are only ever interpolated
into f-strings by the script, never computed with, so they are modelled
by their decimal rendering (the result of Python `str`) as a `String`
field.  The integer `severity` is modelled by `Int`, rendered with a
model of Python `str` on integers.
-/

/-- Scalar JSON value occurring in a scenario's `attributes` mapping:
the corpus only holds string and integer attribute values. -/
inductive JVal where
  | str (s : String)
  | int (n : Int)
deriving DecidableEq, Repr

/-- One anomaly scenario, the shape of the dicts in the script's
`scenarios` list.  Field names follow the dict keys.  The `attributes`
dict is modelled as an insertion-ordered association list. -/
structure AnomalyRecord where
  service : String
  operation : String
  duration : String
  expected_mean : String
  expected_std : String
  deviation : String
  severity : Int
  severity_name : String
  attributes : List (String × JVal)
  summary : String
  causes : List String
  recommendations : List String
  confidence : String
deriving DecidableEq, Repr

/-- One training example, the dict built by the generation loop:
`{"instruction": ..., "input": "", "output": ...}`. -/
structure TrainingExample where
  instruction : String
  input : String
  output : String
deriving DecidableEq, Repr

/-- Absence of a newline character, used to state which records render
to the line structure promised by the spec. -/
def noNL (s : String) : Prop := '\n' ∉ s.data

instance (s : String) : Decidable (noNL s) := by unfold noNL; infer_instance

/-- Validity of an anomaly record per the spec's data model (section 3):
single-line text fields, 2 to 3 causes and recommendations, and a
confidence label among low / medium / high. -/
def ValidRecord (s : AnomalyRecord) : Prop :=
  noNL s.summary ∧ (∀ c ∈ s.causes, noNL c) ∧ (∀ r ∈ s.recommendations, noNL r) ∧
  2 ≤ s.causes.length ∧ s.causes.length ≤ 3 ∧
  2 ≤ s.recommendations.length ∧ s.recommendations.length ≤ 3 ∧
  (s.confidence = "low" ∨ s.confidence = "medium" ∨ s.confidence = "high")

instance (s : AnomalyRecord) : Decidable (ValidRecord s) := by
  unfold ValidRecord; infer_instance

/-! String helpers mirroring the Python primitives the script uses. -/

/-- Python `sep.join(parts)`. -/
def pyJoin (sep : String) : List String → String
  | [] => ""
  | [x] => x
  | x :: y :: ys => x ++ sep ++ pyJoin sep (y :: ys)

/-- Splitting a character list at every occurrence of `c`; the physical
line structure of the rendered text is `splitOnChar` at the newline
character. -/
def splitOnChar (c : Char) : List Char → List (List Char)
  | [] => [[]]
  | a :: as =>
    match splitOnChar c as with
    | [] => [[]]
    | h :: t => if a = c then [] :: h :: t else (a :: h) :: t

/-- Lines of a string, splitting at every newline character. -/
def linesOf (s : String) : List String :=
  (splitOnChar '\n' s.data).map String.mk

/-- Boolean test that `n` is an initial segment of `h`. -/
def prefixChars : List Char → List Char → Bool
  | [], _ => true
  | _ :: _, [] => false
  | a :: as, b :: bs => a == b && prefixChars as bs

/-- Boolean test that `n` occurs contiguously inside `h`; Python's
`n in h` on strings. -/
def subChars (n : List Char) : List Char → Bool
  | [] => prefixChars n []
  | b :: bs => prefixChars n (b :: bs) || subChars n bs

/-- Python `h.startswith(n)` / a leading-marker test on a line. -/
def pyStartsWith (n h : String) : Bool := prefixChars n.data h.data

/-- Python `n in h` on strings. -/
def pyIn (n h : String) : Bool := subChars n.data h.data

/-! Model of Python `str` on integers, used for `severity` and for
integer attribute values inside `json.dumps`. -/

/-- Decimal digit character. -/
def digitChar : Nat → Char
  | 0 => '0' | 1 => '1' | 2 => '2' | 3 => '3' | 4 => '4'
  | 5 => '5' | 6 => '6' | 7 => '7' | 8 => '8' | 9 => '9'
  | _ => '0'

/-- Decimal digits of a natural number, most significant first. -/
def natDigits (n : Nat) : List Char :=
  if n < 10 then [digitChar n]
  else natDigits (n / 10) ++ [digitChar (n % 10)]
decreasing_by exact Nat.div_lt_self (by omega) (by omega)

/-- Python `str` on an `int`. -/
def pyIntStr (i : Int) : String :=
  if i < 0 then "-" ++ String.mk (natDigits (-i).toNat)
  else String.mk (natDigits i.toNat)

/-! Model of the JSON string escaping performed by `json.dumps`.  The
generation loop calls `json.dumps(entry, ensure_ascii=False)`, which
escapes the quote, the backslash and control characters and passes
every other character through.  The attributes block inside the prompt
is produced by `json.dumps(s['attributes'], indent=2)` with the default
`ensure_ascii=True`, which additionally escapes every character above
the ASCII range. -/

/-- Lowercase hexadecimal digit character, as produced by the `%04x`
format `json.dumps` uses for escaped code points. -/
def hexDig : Nat → Char
  | 0 => '0' | 1 => '1' | 2 => '2' | 3 => '3' | 4 => '4'
  | 5 => '5' | 6 => '6' | 7 => '7' | 8 => '8' | 9 => '9'
  | 10 => 'a' | 11 => 'b' | 12 => 'c' | 13 => 'd' | 14 => 'e' | 15 => 'f'
  | _ => '0'

/-- Four-digit lowercase hex rendering of a code point, the body of a
`\u` escape. -/
def hex4 (n : Nat) : List Char :=
  [hexDig (n / 4096 % 16), hexDig (n / 256 % 16), hexDig (n / 16 % 16), hexDig (n % 16)]

/-- Escaping of one character by `json.dumps(..., ensure_ascii=False)`:
quote and backslash get a backslash escape, the five named control
characters get their short escapes, other control characters get a
`\u00xx` escape, everything else passes through. -/
def escapeChar (c : Char) : List Char :=
  if c = '"' then ['\\', '"']
  else if c = '\\' then ['\\', '\\']
  else if 32 ≤ c.toNat then [c]
  else if c = '\x08' then ['\\', 'b']
  else if c = '\x09' then ['\\', 't']
  else if c = '\x0a' then ['\\', 'n']
  else if c = '\x0c' then ['\\', 'f']
  else if c = '\x0d' then ['\\', 'r']
  else '\\' :: 'u' :: hex4 c.toNat

/-- Escaping of a whole character list with `escapeChar`. -/
def escListChars : List Char → List Char
  | [] => []
  | c :: cs => escapeChar c ++ escListChars cs

/-- Quoted JSON string literal as emitted by
`json.dumps(..., ensure_ascii=False)`. -/
def jsonQuote (s : String) : String :=
  "\"" ++ String.mk (escListChars s.data) ++ "\""

/-- Escaping of one character by `json.dumps` with the default
`ensure_ascii=True`: like `escapeChar`, but characters above `0x7e`
are also `\u`-escaped (astral characters as a surrogate pair). -/
def escapeCharA (c : Char) : List Char :=
  if c = '"' then ['\\', '"']
  else if c = '\\' then ['\\', '\\']
  else if 32 ≤ c.toNat ∧ c.toNat ≤ 126 then [c]
  else if c = '\x08' then ['\\', 'b']
  else if c = '\x09' then ['\\', 't']
  else if c = '\x0a' then ['\\', 'n']
  else if c = '\x0c' then ['\\', 'f']
  else if c = '\x0d' then ['\\', 'r']
  else if c.toNat < 65536 then '\\' :: 'u' :: hex4 c.toNat
  else
    '\\' :: 'u' :: hex4 (55296 + (c.toNat - 65536) / 1024) ++
      '\\' :: 'u' :: hex4 (56320 + (c.toNat - 65536) % 1024)

/-- Escaping of a whole character list with `escapeCharA`. -/
def escListCharsA : List Char → List Char
  | [] => []
  | c :: cs => escapeCharA c ++ escListCharsA cs

/-- Quoted JSON string literal as emitted by `json.dumps` with the
default `ensure_ascii=True`. -/
def jsonQuoteA (s : String) : String :=
  "\"" ++ String.mk (escListCharsA s.data) ++ "\""

/-- Rendering of a scalar attribute value by
`json.dumps(..., indent=2)` (default `ensure_ascii=True`). -/
def renderJValA : JVal → String
  | .str s => jsonQuoteA s
  | .int n => pyIntStr n

/-- Rendering of one `"key": value` member of the attributes object. -/
def renderMember (kv : String × JVal) : String :=
  jsonQuoteA kv.1 ++ ": " ++ renderJValA kv.2

/-- Model of `json.dumps(attrs, indent=2)` on a flat object:
`\x7b\x7d` for the empty mapping, otherwise one member per line with a
2-space indent, members separated by a comma at end of line, in
insertion order. -/
def pyDumpsIndent2 (attrs : List (String × JVal)) : String :=
  match attrs with
  | [] => "\x7b\x7d"
  | _ => "\x7b\n" ++ pyJoin ",\n" (attrs.map (fun kv => "  " ++ renderMember kv)) ++ "\n\x7d"

/-! The two renderers, translated from the script's f-strings. -/

/-- Translation of `build_instruction`: the prompt template with the
scenario's data interpolated. -/
def build_instruction (s : AnomalyRecord) : String :=
  "You are an expert in distributed systems and observability. Analyze this performance anomaly:\n\n## Anomaly Details\n- Service: "
    ++ s.service
    ++ "\n- Operation: " ++ s.operation
    ++ "\n- Duration: " ++ s.duration ++ "ms (expected: " ++ s.expected_mean
    ++ "ms ± " ++ s.expected_std
    ++ "ms)\n- Deviation: " ++ s.deviation
    ++ "σ (standard deviations from mean)\n- Severity: SEV" ++ pyIntStr s.severity
    ++ " (" ++ s.severity_name
    ++ ")\n\n## Span Attributes\n" ++ pyDumpsIndent2 s.attributes
    ++ "\n\nBased on the trace data AND correlated metrics, provide:\n1. A brief summary (1-2 sentences) of what likely caused this anomaly\n2. 2-3 possible root causes (consider resource utilization if metrics show issues)\n3. 2-3 actionable recommendations\n\nFormat your response as:\nSUMMARY: [your summary]\nCAUSES:\n- [cause 1]\n- [cause 2]\nRECOMMENDATIONS:\n- [recommendation 1]\n- [recommendation 2]\nCONFIDENCE: [low/medium/high]"

/-- Translation of `build_output`: the canonical response built from
the summary, the bulleted causes and recommendations, and the
confidence label. -/
def build_output (s : AnomalyRecord) : String :=
  "SUMMARY: " ++ s.summary
    ++ "\nCAUSES:\n" ++ pyJoin "\n" (s.causes.map (fun c => "- " ++ c))
    ++ "\nRECOMMENDATIONS:\n" ++ pyJoin "\n" (s.recommendations.map (fun r => "- " ++ r))
    ++ "\nCONFIDENCE: " ++ s.confidence

/-- The dict built for one scenario by the generation loop. -/
def makeExample (s : AnomalyRecord) : TrainingExample :=
  { instruction := build_instruction s, input := "", output := build_output s }

/-- Serialization of one example, `json.dumps(entry, ensure_ascii=False)`:
the three members in insertion order with the default separators. -/
def jsonEncodeExample (e : TrainingExample) : String :=
  "\x7b" ++ jsonQuote "instruction" ++ ": " ++ jsonQuote e.instruction
    ++ ", " ++ jsonQuote "input" ++ ": " ++ jsonQuote e.input
    ++ ", " ++ jsonQuote "output" ++ ": " ++ jsonQuote e.output ++ "\x7d"

/-- Contents of the output file: the generation loop writes the
serialized example for each scenario, in corpus order, each followed by
one newline. -/
def fileContents (corpus : List AnomalyRecord) : String :=
  match corpus with
  | [] => ""
  | s :: rest => jsonEncodeExample (makeExample s) ++ "\n" ++ fileContents rest

/-! The format validator, translated from the validation loop at the
bottom of the script. -/

/-- Per-line validation data computed by the loop: the four marker
flags and the raw output length. -/
structure ValidationResult where
  has_summary : Bool
  has_causes : Bool
  has_recs : Bool
  has_conf : Bool
  out_len : Nat
deriving DecidableEq, Repr

/-- The per-line check of the validation loop, applied to the `output`
field extracted from a decoded line:
`'SUMMARY:' in out` and so on for the four markers. -/
def checkLine (out : String) : ValidationResult :=
  { has_summary := pyIn "SUMMARY:" out
    has_causes := pyIn "CAUSES:" out
    has_recs := pyIn "RECOMMENDATIONS:" out
    has_conf := pyIn "CONFIDENCE:" out
    out_len := out.length }

/-- The loop's `ok` for one line: all four flags. -/
def lineOk (out : String) : Bool :=
  (checkLine out).has_summary && (checkLine out).has_causes &&
    (checkLine out).has_recs && (checkLine out).has_conf

/-- The validation loop over the decoded `output` fields, threading the
`all_good` accumulator: every line is checked and reported, and
`all_good` is cleared on a failing line without stopping the loop. -/
def validateLoop : List String → Bool → List ValidationResult × Bool
  | [], acc => ([], acc)
  | out :: rest, acc =>
    let r := checkLine out
    let next := validateLoop rest (if lineOk out then acc else false)
    (r :: next.1, next.2)

/-- The whole validation pass, `all_good` starting at `True`. -/
def validateOutputs (outs : List String) : List ValidationResult × Bool :=
  validateLoop outs true

/-! Decoder modelling `json.loads` on the emitted lines.  The file's
lines are JSON objects of three string members, so the model parses
exactly that grammar: an object brace, the three members, each a JSON
string key and a JSON string value, with JSON whitespace allowed
between tokens and the standard string escapes decoded. -/

/-- JSON whitespace. -/
def isJsonWs (c : Char) : Bool :=
  c = ' ' || c = '\t' || c = '\n' || c = '\r'

/-- Skipping JSON whitespace. -/
def skipWs : List Char → List Char
  | [] => []
  | c :: rest => if isJsonWs c then skipWs rest else c :: rest

/-- Consuming one expected character. -/
def expectChar (c : Char) : List Char → Option (List Char)
  | [] => none
  | x :: rest => if x = c then some rest else none

/-- Value of a hexadecimal digit character. -/
def hexVal (c : Char) : Option Nat :=
  if '0' ≤ c ∧ c ≤ '9' then some (c.toNat - 48)
  else if 'a' ≤ c ∧ c ≤ 'f' then some (c.toNat - 87)
  else if 'A' ≤ c ∧ c ≤ 'F' then some (c.toNat - 55)
  else none

/-- Body of a JSON string after the opening quote: returns the decoded
characters and the input after the closing quote.  Raw control
characters are rejected, as by `json.loads` in strict mode; `\u`
escapes outside the surrogate range decode to the corresponding
character (the encoder only emits `\u00xx` here). -/
def parseStrBody : List Char → Option (List Char × List Char)
  | [] => none
  | c :: rest =>
    if c = '"' then some ([], rest)
    else if c = '\\' then
      match rest with
      | [] => none
      | e :: rest2 =>
        if e = '"' then (parseStrBody rest2).map (fun p => ('"' :: p.1, p.2))
        else if e = '\\' then (parseStrBody rest2).map (fun p => ('\\' :: p.1, p.2))
        else if e = '/' then (parseStrBody rest2).map (fun p => ('/' :: p.1, p.2))
        else if e = 'b' then (parseStrBody rest2).map (fun p => ('\x08' :: p.1, p.2))
        else if e = 't' then (parseStrBody rest2).map (fun p => ('\x09' :: p.1, p.2))
        else if e = 'n' then (parseStrBody rest2).map (fun p => ('\x0a' :: p.1, p.2))
        else if e = 'f' then (parseStrBody rest2).map (fun p => ('\x0c' :: p.1, p.2))
        else if e = 'r' then (parseStrBody rest2).map (fun p => ('\x0d' :: p.1, p.2))
        else if e = 'u' then
          match rest2 with
          | a :: b :: c2 :: d :: rest3 =>
            match hexVal a, hexVal b, hexVal c2, hexVal d with
            | some ha, some hb, some hc, some hd =>
              let code := ha * 4096 + hb * 256 + hc * 16 + hd
              if code < 55296 ∨ (57344 ≤ code ∧ code < 1114112) then
                (parseStrBody rest3).map (fun p => (Char.ofNat code :: p.1, p.2))
              else none
            | _, _, _, _ => none
          | _ => none
        else none
    else if c.toNat < 32 then none
    else (parseStrBody rest).map (fun p => (c :: p.1, p.2))

/-- A JSON string, opening quote included. -/
def parseJStr (l : List Char) : Option (List Char × List Char) :=
  match l with
  | [] => none
  | c :: rest => if c = '"' then parseStrBody rest else none

/-- One `"key": "value"` member whose key must be `key`; returns the
decoded value and the remaining input. -/
def parseMember (key : String) (l : List Char) : Option (String × List Char) := do
  let p ← parseJStr (skipWs l)
  if p.1 = key.data then
    let l2 ← expectChar ':' (skipWs p.2)
    let q ← parseJStr (skipWs l2)
    pure (String.mk q.1, q.2)
  else none

/-- Model of `json.loads` on one emitted line: the three-string-member
object grammar the generator writes, trailing whitespace (the line's
newline) allowed. -/
def decodeExampleLine (line : String) : Option TrainingExample := do
  let l ← expectChar '\x7b' (skipWs line.data)
  let pi ← parseMember "instruction" l
  let l2 ← expectChar ',' (skipWs pi.2)
  let pn ← parseMember "input" l2
  let l3 ← expectChar ',' (skipWs pn.2)
  let po ← parseMember "output" l3
  let l4 ← expectChar '\x7d' (skipWs po.2)
  if skipWs l4 = [] then
    pure { instruction := pi.1, input := pn.1, output := po.1 }
  else none

/-! Missing-field model for the renderers.  A scenario is a Python
dict; `s['service']` raises `KeyError` when the key is absent.  A
partial record has an `Option` per key, and the optional renderers
thread the accesses through `Option`, `none` modelling the raised
`KeyError` (generation for the record aborts; nothing is defaulted). -/

/-- A scenario dict in which any key may be missing. -/
structure PartialRecord where
  service : Option String
  operation : Option String
  duration : Option String
  expected_mean : Option String
  expected_std : Option String
  deviation : Option String
  severity : Option Int
  severity_name : Option String
  attributes : Option (List (String × JVal))
  summary : Option String
  causes : Option (List String)
  recommendations : Option (List String)
  confidence : Option String

/-- A total record seen as a partial one with every key present. -/
def toPartial (s : AnomalyRecord) : PartialRecord :=
  { service := some s.service, operation := some s.operation,
    duration := some s.duration, expected_mean := some s.expected_mean,
    expected_std := some s.expected_std, deviation := some s.deviation,
    severity := some s.severity, severity_name := some s.severity_name,
    attributes := some s.attributes, summary := some s.summary,
    causes := some s.causes, recommendations := some s.recommendations,
    confidence := some s.confidence }

/-- `build_instruction` on a dict with possibly missing keys: each
access either yields the value or raises, and the template is rendered
only when every required key is present. -/
def buildInstructionOpt (s : PartialRecord) : Option String := do
  let service ← s.service
  let operation ← s.operation
  let duration ← s.duration
  let expected_mean ← s.expected_mean
  let expected_std ← s.expected_std
  let deviation ← s.deviation
  let severity ← s.severity
  let severity_name ← s.severity_name
  let attributes ← s.attributes
  pure (build_instruction
    { service := service, operation := operation, duration := duration,
      expected_mean := expected_mean, expected_std := expected_std,
      deviation := deviation, severity := severity,
      severity_name := severity_name, attributes := attributes,
      summary := "", causes := [], recommendations := [], confidence := "" })

/-- `build_output` on a dict with possibly missing keys. -/
def buildOutputOpt (s : PartialRecord) : Option String := do
  let summary ← s.summary
  let causes ← s.causes
  let recommendations ← s.recommendations
  let confidence ← s.confidence
  pure (build_output
    { service := "", operation := "", duration := "", expected_mean := "",
      expected_std := "", deviation := "", severity := 0, severity_name := "",
      attributes := [], summary := summary, causes := causes,
      recommendations := recommendations, confidence := confidence })

/-! Pipeline run model for the determinism claim.  The script's loop
reads nothing but the corpus: the `random` import is never used and no
ambient state (time, RNG, environment) is consulted.  The run model
threads an explicit RNG-seed component through the loop so that the
theorem can state that the seed is immaterial to every observable. -/

/-- Observables of one run: the file bytes, the rendered instructions
and outputs per record, and the final seed state. -/
structure PipelineRun where
  file : String
  instructions : List String
  outputs : List String
  seed : Nat
deriving DecidableEq, Repr

/-- The generation loop with the ambient seed threaded through: no
iteration consults or advances it, mirroring the absence of any
`random` call in the script. -/
def genLoop : List AnomalyRecord → Nat → String × Nat
  | [], g => ("", g)
  | s :: rest, g =>
    let line := jsonEncodeExample (makeExample s) ++ "\n"
    let next := genLoop rest g
    (line ++ next.1, next.2)

/-- One full pipeline run from a corpus and an initial seed. -/
def runPipeline (corpus : List AnomalyRecord) (g : Nat) : PipelineRun :=
  { file := (genLoop corpus g).1
    instructions := corpus.map build_instruction
    outputs := corpus.map build_output
    seed := (genLoop corpus g).2 }

/-! Basic lemmas about the string helpers. -/

theorem mk_data (s : String) : String.mk s.data = s := rfl

theorem mk_append (a b : String) : String.mk (a.data ++ b.data) = a ++ b := rfl

theorem splitOnChar_ne_nil (c : Char) (l : List Char) : splitOnChar c l ≠ [] := by
  cases l with
  | nil => simp [splitOnChar]
  | cons a as =>
    simp only [splitOnChar]
    split
    · simp
    · split <;> simp

theorem splitOnChar_cons_self (c : Char) (ys : List Char) :
    splitOnChar c (c :: ys) = [] :: splitOnChar c ys := by
  simp only [splitOnChar]
  split
  · exact absurd (by assumption) (splitOnChar_ne_nil c ys)
  · rename_i h t he
    simp [← he]

theorem splitOnChar_cons_ne (a c : Char) (ys : List Char) (h : a ≠ c) :
    splitOnChar c (a :: ys) =
      ((splitOnChar c ys).headD []).cons a :: (splitOnChar c ys).tail := by
  simp only [splitOnChar]
  split
  · exact absurd (by assumption) (splitOnChar_ne_nil c ys)
  · rename_i hh tt he
    simp [he, if_neg h]

theorem splitOnChar_eq_single {c : Char} {l : List Char} (h : c ∉ l) :
    splitOnChar c l = [l] := by
  induction l with
  | nil => rfl
  | cons a as ih =>
    have ha : a ≠ c := fun e => h (by simp [e])
    have has : c ∉ as := fun e => h (by simp [e])
    rw [splitOnChar_cons_ne a c as ha, ih has]
    rfl

theorem splitOnChar_append_cons {c : Char} {xs : List Char} (ys : List Char)
    (h : c ∉ xs) : splitOnChar c (xs ++ c :: ys) = xs :: splitOnChar c ys := by
  induction xs with
  | nil => simpa using splitOnChar_cons_self c ys
  | cons a as ih =>
    have ha : a ≠ c := fun e => h (by simp [e])
    have has : c ∉ as := fun e => h (by simp [e])
    rw [List.cons_append, splitOnChar_cons_ne a c _ ha, ih has]
    rfl

theorem splitOnChar_pyJoin (ls : List String) (hne : ls ≠ [])
    (hnl : ∀ l ∈ ls, '\n' ∉ l.data) (ys : List Char) :
    splitOnChar '\n' ((pyJoin "\n" ls).data ++ '\n' :: ys) =
      ls.map String.data ++ splitOnChar '\n' ys := by
  induction ls with
  | nil => exact absurd rfl hne
  | cons x xs ih =>
    cases xs with
    | nil =>
      simp only [pyJoin, List.map]
      rw [splitOnChar_append_cons ys (hnl x (by simp))]
      rfl
    | cons y ys2 =>
      have hx : '\n' ∉ x.data := hnl x (by simp)
      have hrest : ∀ l ∈ y :: ys2, '\n' ∉ l.data := fun l hl => hnl l (by simp [hl])
      simp only [pyJoin, String.data_append]
      have : x.data ++ ['\n'] ++ (pyJoin "\n" (y :: ys2)).data ++ '\n' :: ys =
          x.data ++ '\n' :: ((pyJoin "\n" (y :: ys2)).data ++ '\n' :: ys) := by
        simp
      rw [this, splitOnChar_append_cons _ hx, ih (by simp) hrest]
      rfl

theorem prefixChars_self_append (n v : List Char) : prefixChars n (n ++ v) = true := by
  induction n with
  | nil => rfl
  | cons a as ih => simp [prefixChars, ih]

theorem subChars_of_prefixChars {n h : List Char} (hp : prefixChars n h = true) :
    subChars n h = true := by
  cases h with
  | nil => simpa [subChars] using hp
  | cons b bs => simp [subChars, hp]

theorem subChars_cons {n : List Char} (c : Char) {t : List Char}
    (h : subChars n t = true) : subChars n (c :: t) = true := by
  simp [subChars, h]

theorem subChars_append_right {n v : List Char} (u : List Char)
    (h : subChars n v = true) : subChars n (u ++ v) = true := by
  induction u with
  | nil => simpa using h
  | cons a as ih => simpa using subChars_cons a ih

theorem subChars_self_append (n v : List Char) : subChars n (n ++ v) = true :=
  subChars_of_prefixChars (prefixChars_self_append n v)

theorem dropWhile_append_of {α : Type} (p : α → Bool) (xs : List α) (y : α)
    (ys : List α) (hxs : ∀ x ∈ xs, p x = true) (hy : p y = false) :
    (xs ++ y :: ys).dropWhile p = y :: ys := by
  induction xs with
  | nil => simp [List.dropWhile, hy]
  | cons a as ih =>
    have ha : p a = true := hxs a (by simp)
    simp only [List.cons_append, List.dropWhile, ha]
    exact ih fun x hx => hxs x (by simp [hx])

theorem takeWhile_append_of {α : Type} (p : α → Bool) (xs : List α) (y : α)
    (ys : List α) (hxs : ∀ x ∈ xs, p x = true) (hy : p y = false) :
    (xs ++ y :: ys).takeWhile p = xs := by
  induction xs with
  | nil => simp [List.takeWhile, hy]
  | cons a as ih =>
    have ha : p a = true := hxs a (by simp)
    simp only [List.cons_append, List.takeWhile_cons, ha, if_true]
    rw [ih fun x hx => hxs x (by simp [hx])]

/-- Character-level shape of the rendered response: the f-string glues
the four blocks with single newlines. -/
theorem data_build_output (s : AnomalyRecord) :
    (build_output s).data =
      ("SUMMARY: " ++ s.summary).data ++ '\n' ::
        ("CAUSES:".data ++ '\n' ::
          ((pyJoin "\n" (s.causes.map (fun c => "- " ++ c))).data ++ '\n' ::
            ("RECOMMENDATIONS:".data ++ '\n' ::
              ((pyJoin "\n" (s.recommendations.map (fun r => "- " ++ r))).data ++ '\n' ::
                ("CONFIDENCE: " ++ s.confidence).data)))) := by
  have e1 : "\nCAUSES:\n".data = '\n' :: "CAUSES:".data ++ ['\n'] := rfl
  have e2 : "\nRECOMMENDATIONS:\n".data = '\n' :: "RECOMMENDATIONS:".data ++ ['\n'] := rfl
  have e3 : "\nCONFIDENCE: ".data = '\n' :: "CONFIDENCE: ".data := rfl
  simp [build_output, String.data_append, e1, e2, e3]

/-- The line list the response renderer produces for a valid record. -/
def responseLines (s : AnomalyRecord) : List String :=
  ("SUMMARY: " ++ s.summary) :: "CAUSES:" ::
    (s.causes.map (fun c => "- " ++ c) ++ "RECOMMENDATIONS:" ::
      (s.recommendations.map (fun r => "- " ++ r) ++ [("CONFIDENCE: " ++ s.confidence)]))

theorem noNL_confidence {c : String} (h : c = "low" ∨ c = "medium" ∨ c = "high") :
    '\n' ∉ c.data := by
  rcases h with e | e | e <;> rw [e] <;> decide

theorem noNL_bullet {x : String} (hx : '\n' ∉ x.data) :
    '\n' ∉ ("- " ++ x).data := by
  rw [String.data_append]
  intro hmem
  rcases List.mem_append.mp hmem with h | h
  · exact absurd h (by decide)
  · exact hx h

theorem splitOnChar_responseLines (s : AnomalyRecord) (h : ValidRecord s) :
    splitOnChar '\n' (build_output s).data = (responseLines s).map String.data := by
  obtain ⟨hsum, hcau, hrec, hc2, hc3, hr2, hr3, hconf⟩ := h
  rw [data_build_output]
  have hsum2 : '\n' ∉ ("SUMMARY: " ++ s.summary).data := by
    rw [String.data_append]
    intro hmem
    rcases List.mem_append.mp hmem with hm | hm
    · exact absurd hm (by decide)
    · exact hsum hm
  rw [splitOnChar_append_cons _ hsum2,
    splitOnChar_append_cons _ (show '\n' ∉ "CAUSES:".data by decide),
    splitOnChar_pyJoin _
      (by intro he; rw [List.map_eq_nil_iff] at he; rw [he] at hc2; simp at hc2)
      (by rintro l hl; rcases List.mem_map.mp hl with ⟨c, hc, rfl⟩; exact noNL_bullet (hcau c hc)),
    splitOnChar_append_cons _ (show '\n' ∉ "RECOMMENDATIONS:".data by decide),
    splitOnChar_pyJoin _
      (by intro he; rw [List.map_eq_nil_iff] at he; rw [he] at hr2; simp at hr2)
      (by rintro l hl; rcases List.mem_map.mp hl with ⟨r, hr, rfl⟩; exact noNL_bullet (hrec r hr))]
  rw [splitOnChar_eq_single (by
    rw [String.data_append]
    intro hmem
    rcases List.mem_append.mp hmem with hm | hm
    · exact absurd hm (by decide)
    · exact noNL_confidence hconf hm)]
  simp [responseLines, List.map_map]

/-- Line structure of the rendered response for a valid record. -/
theorem linesOf_build_output (s : AnomalyRecord) (h : ValidRecord s) :
    linesOf (build_output s) = responseLines s := by
  rw [linesOf, splitOnChar_responseLines s h, List.map_map]
  exact List.map_id _

theorem getLast?_append_no {v : List Char} (u : List Char) (hne : v ≠ [])
    (hn : '\n' ∉ v) : (u ++ v).getLast? ≠ some '\n' := by
  rw [List.getLast?_append]
  intro he
  cases hvl : v.getLast? with
  | none => exact hne (List.getLast?_eq_none_iff.mp hvl)
  | some x =>
    rw [hvl] at he
    simp only [Option.or, Option.some.injEq] at he
    exact hn (he ▸ List.mem_of_getLast?_eq_some hvl)

theorem data_confidence_no_newline {s : AnomalyRecord} (h : ValidRecord s) :
    '\n' ∉ ("CONFIDENCE: " ++ s.confidence).data := by
  rw [String.data_append]
  intro hmem
  rcases List.mem_append.mp hmem with hm | hm
  · exact absurd hm (by decide)
  · exact noNL_confidence h.2.2.2.2.2.2.2 hm

theorem getLast?_build_output (s : AnomalyRecord) (h : ValidRecord s) :
    (build_output s).data.getLast? ≠ some '\n' := by
  have hdata : (build_output s).data =
      (("SUMMARY: " ++ s.summary).data ++ '\n' ::
        ("CAUSES:".data ++ '\n' ::
          ((pyJoin "\n" (s.causes.map (fun c => "- " ++ c))).data ++ '\n' ::
            ("RECOMMENDATIONS:".data ++ '\n' ::
              ((pyJoin "\n" (s.recommendations.map (fun r => "- " ++ r))).data ++ ['\n'])))))
        ++ ("CONFIDENCE: " ++ s.confidence).data := by
    rw [data_build_output]
    simp
  rw [hdata]
  exact getLast?_append_no _ (by simp [String.data_append]) (data_confidence_no_newline h)

theorem ne_empty_of_head {a : String} {c : Char} (ha : a.data.head? = some c) :
    a ≠ "" := by
  intro he
  rw [he] at ha
  exact Option.noConfusion ha

theorem ne_of_heads {a b : String} {ca cb : Char} (ha : a.data.head? = some ca)
    (hb : b.data.head? = some cb) (hne : ca ≠ cb) : a ≠ b := by
  intro he
  rw [he, hb] at ha
  exact hne (Option.some.inj ha).symm

theorem responseLines_ne_empty (s : AnomalyRecord) :
    ∀ l ∈ responseLines s, l ≠ "" := by
  intro l hl
  simp only [responseLines, List.mem_cons, List.mem_append, List.mem_map] at hl
  rcases hl with rfl | rfl | ⟨⟨c, -, rfl⟩ | rfl | ⟨r, -, rfl⟩ | rfl | hl⟩
  · exact ne_empty_of_head rfl
  · decide
  · exact ne_empty_of_head rfl
  · decide
  · exact ne_empty_of_head rfl
  · exact ne_empty_of_head rfl
  · simp at hl

/-- C1: for every valid anomaly record, the response renderer produces
exactly four ordered blocks — a first line `SUMMARY: ` followed by the
summary, then the `CAUSES:` marker line followed by the cause bullet
lines, then the `RECOMMENDATIONS:` marker line followed by the
recommendation bullet lines, then a final `CONFIDENCE: ` line with the
confidence label — with no blank line anywhere and no trailing newline
after the final line. -/
theorem build_output_four_blocks (s : AnomalyRecord) (h : ValidRecord s) :
    linesOf (build_output s) =
      ("SUMMARY: " ++ s.summary) :: "CAUSES:" ::
        (s.causes.map (fun c => "- " ++ c) ++ "RECOMMENDATIONS:" ::
          (s.recommendations.map (fun r => "- " ++ r) ++
            [("CONFIDENCE: " ++ s.confidence)])) ∧
    (∀ l ∈ linesOf (build_output s), l ≠ "") ∧
    (build_output s).data.getLast? ≠ some '\n' := by
  refine ⟨linesOf_build_output s h, ?_, getLast?_build_output s h⟩
  intro l hl
  rw [linesOf_build_output s h] at hl
  exact responseLines_ne_empty s l hl

/-- Small concrete valid record used to instantiate the universally
quantified theorems. -/
def sampleRecord : AnomalyRecord :=
  { service := "svc", operation := "op", duration := "1.5",
    expected_mean := "1.0", expected_std := "0.5", deviation := "2.0",
    severity := 3, severity_name := "Warning",
    attributes := [("k", JVal.str "v"), ("n", JVal.int 200)],
    summary := "sum", causes := ["c1", "c2"],
    recommendations := ["r1", "r2"], confidence := "high" }

/-- Witness for C1 at a concrete valid record. -/
theorem build_output_four_blocks_witness :
    ValidRecord sampleRecord ∧
      (linesOf (build_output sampleRecord) =
        ("SUMMARY: " ++ sampleRecord.summary) :: "CAUSES:" ::
          (sampleRecord.causes.map (fun c => "- " ++ c) ++ "RECOMMENDATIONS:" ::
            (sampleRecord.recommendations.map (fun r => "- " ++ r) ++
              [("CONFIDENCE: " ++ sampleRecord.confidence)])) ∧
      (∀ l ∈ linesOf (build_output sampleRecord), l ≠ "") ∧
      (build_output sampleRecord).data.getLast? ≠ some '\n') :=
  ⟨by decide, build_output_four_blocks sampleRecord (by decide)⟩

/-- Bullet lines following a marker line: drop everything up to the
marker, skip the marker line, and take the following lines that begin
with the bullet dash. -/
def bulletsUnder (marker : String) (ls : List String) : List String :=
  ((ls.dropWhile (fun l => l != marker)).drop 1).takeWhile
    (fun l => pyStartsWith "- " l)

theorem startsWith_dash (x : String) : pyStartsWith "- " ("- " ++ x) = true := by
  have e : ("- " ++ x).data = '-' :: ' ' :: x.data := by
    rw [String.data_append]
    rfl
  simp [pyStartsWith, e, prefixChars]

theorem bne_true_of_ne {a b : String} (h : a ≠ b) : (a != b) = true := by
  simp [bne_iff_ne, h]

theorem summary_ne {x m : String} (hm : m.data.head? = some 'C' ∨ m.data.head? = some 'R') :
    ("SUMMARY: " ++ x) ≠ m := by
  rcases hm with hm | hm
  · exact ne_of_heads (show ("SUMMARY: " ++ x).data.head? = some 'S' from rfl) hm (by decide)
  · exact ne_of_heads (show ("SUMMARY: " ++ x).data.head? = some 'S' from rfl) hm (by decide)

theorem bullet_ne {x m : String} (hm : m.data.head? = some 'C' ∨ m.data.head? = some 'R') :
    ("- " ++ x) ≠ m := by
  rcases hm with hm | hm
  · exact ne_of_heads (show ("- " ++ x).data.head? = some '-' from rfl) hm (by decide)
  · exact ne_of_heads (show ("- " ++ x).data.head? = some '-' from rfl) hm (by decide)

theorem bulletsUnder_causes (s : AnomalyRecord) :
    bulletsUnder "CAUSES:" (responseLines s) = s.causes.map (fun c => "- " ++ c) := by
  unfold bulletsUnder responseLines
  rw [List.dropWhile_cons]
  rw [if_pos (bne_true_of_ne (summary_ne
    (Or.inl (show ("CAUSES:" : String).data.head? = some 'C' from rfl))))]
  rw [List.dropWhile_cons]
  rw [if_neg (by simp)]
  rw [List.drop_succ_cons, List.drop_zero]
  exact takeWhile_append_of _ _ _ _
    (by
      intro l hl
      rcases List.mem_map.mp hl with ⟨c, -, rfl⟩
      exact startsWith_dash c)
    (by decide)

theorem confidence_not_dash (x : String) :
    pyStartsWith "- " ("CONFIDENCE: " ++ x) = false := by
  have e : ("CONFIDENCE: " ++ x).data = 'C' :: "ONFIDENCE: ".data ++ x.data := by
    rw [String.data_append]
  simp [pyStartsWith, e, prefixChars]

theorem bulletsUnder_recs (s : AnomalyRecord) :
    bulletsUnder "RECOMMENDATIONS:" (responseLines s) =
      s.recommendations.map (fun r => "- " ++ r) := by
  unfold bulletsUnder responseLines
  have hshape : ("SUMMARY: " ++ s.summary) :: "CAUSES:" ::
      (s.causes.map (fun c => "- " ++ c) ++ "RECOMMENDATIONS:" ::
        (s.recommendations.map (fun r => "- " ++ r) ++
          [("CONFIDENCE: " ++ s.confidence)])) =
      (("SUMMARY: " ++ s.summary) :: "CAUSES:" :: s.causes.map (fun c => "- " ++ c))
        ++ "RECOMMENDATIONS:" ::
          (s.recommendations.map (fun r => "- " ++ r) ++
            [("CONFIDENCE: " ++ s.confidence)]) := by
    simp
  rw [hshape, dropWhile_append_of _ _ _ _
    (by
      intro l hl
      simp only [List.mem_cons, List.mem_map] at hl
      rcases hl with rfl | rfl | ⟨c, -, rfl⟩
      · exact bne_true_of_ne (summary_ne
          (Or.inr (show ("RECOMMENDATIONS:" : String).data.head? = some 'R' from rfl)))
      · decide
      · exact bne_true_of_ne (bullet_ne
          (Or.inr (show ("RECOMMENDATIONS:" : String).data.head? = some 'R' from rfl))))
    (by simp)]
  rw [List.drop_succ_cons, List.drop_zero]
  exact takeWhile_append_of _ _ _ _
    (by
      intro l hl
      rcases List.mem_map.mp hl with ⟨r, -, rfl⟩
      exact startsWith_dash r)
    (confidence_not_dash s.confidence)

/-- C3: in the rendered response of a valid record, the bullet lines
under `CAUSES:` are exactly the record's causes — same count, and the
i-th bullet is the dash prefix followed by the i-th cause, in input
order — and likewise the bullet lines under `RECOMMENDATIONS:` are
exactly the record's recommendations. -/
theorem bullet_lines_exact (s : AnomalyRecord) (h : ValidRecord s) :
    bulletsUnder "CAUSES:" (linesOf (build_output s)) =
      s.causes.map (fun c => "- " ++ c) ∧
    bulletsUnder "RECOMMENDATIONS:" (linesOf (build_output s)) =
      s.recommendations.map (fun r => "- " ++ r) ∧
    (bulletsUnder "CAUSES:" (linesOf (build_output s))).length = s.causes.length ∧
    (bulletsUnder "RECOMMENDATIONS:" (linesOf (build_output s))).length =
      s.recommendations.length ∧
    (∀ i, ∀ hi : i < s.causes.length,
      (bulletsUnder "CAUSES:" (linesOf (build_output s)))[i]? =
        some ("- " ++ s.causes[i])) ∧
    (∀ i, ∀ hi : i < s.recommendations.length,
      (bulletsUnder "RECOMMENDATIONS:" (linesOf (build_output s)))[i]? =
        some ("- " ++ s.recommendations[i])) := by
  rw [linesOf_build_output s h, bulletsUnder_causes, bulletsUnder_recs]
  refine ⟨rfl, rfl, by simp, by simp, ?_, ?_⟩
  · intro i hi
    simp [List.getElem?_map, List.getElem?_eq_getElem hi]
  · intro i hi
    simp [List.getElem?_map, List.getElem?_eq_getElem hi]

/-- Witness for C3 at a concrete valid record. -/
theorem bullet_lines_exact_witness :
    ValidRecord sampleRecord ∧
    bulletsUnder "CAUSES:" (linesOf (build_output sampleRecord)) =
      sampleRecord.causes.map (fun c => "- " ++ c) ∧
    bulletsUnder "RECOMMENDATIONS:" (linesOf (build_output sampleRecord)) =
      sampleRecord.recommendations.map (fun r => "- " ++ r) ∧
    (bulletsUnder "CAUSES:" (linesOf (build_output sampleRecord)))[0]? =
      some ("- " ++ "c1") :=
  ⟨by decide, (bullet_lines_exact sampleRecord (by decide)).1,
    (bullet_lines_exact sampleRecord (by decide)).2.1, by
      have h0 := (bullet_lines_exact sampleRecord (by decide)).2.2.2.2.1 0 (by decide)
      exact h0.trans (congrArg some (by decide))⟩

theorem pyIn_summary (s : AnomalyRecord) :
    pyIn "SUMMARY:" (build_output s) = true := by
  unfold pyIn
  rw [data_build_output]
  have e : ("SUMMARY: " ++ s.summary).data =
      "SUMMARY:".data ++ ' ' :: s.summary.data := rfl
  rw [e, List.append_assoc]
  exact subChars_self_append _ _

theorem pyIn_causes (s : AnomalyRecord) :
    pyIn "CAUSES:" (build_output s) = true := by
  unfold pyIn
  rw [data_build_output]
  exact subChars_append_right _ (subChars_cons _ (subChars_self_append _ _))

theorem pyIn_recs (s : AnomalyRecord) :
    pyIn "RECOMMENDATIONS:" (build_output s) = true := by
  unfold pyIn
  rw [data_build_output]
  exact subChars_append_right _ (subChars_cons _ (subChars_append_right _
    (subChars_cons _ (subChars_append_right _
      (subChars_cons _ (subChars_self_append _ _))))))

theorem pyIn_conf (s : AnomalyRecord) :
    pyIn "CONFIDENCE:" (build_output s) = true := by
  unfold pyIn
  rw [data_build_output]
  have e : ("CONFIDENCE: " ++ s.confidence).data =
      "CONFIDENCE:".data ++ ' ' :: s.confidence.data := rfl
  rw [e]
  exact subChars_append_right _ (subChars_cons _ (subChars_append_right _
    (subChars_cons _ (subChars_append_right _ (subChars_cons _
      (subChars_append_right _ (subChars_cons _ (subChars_append_right _
        (subChars_cons _ (subChars_self_append _ _))))))))))

/-- C2: the format validator's per-line check — each of the four
markers occurring as a literal substring of the `output` field — holds
on the rendered response of every record, all four flags true. -/
theorem validator_accepts_rendered (s : AnomalyRecord) :
    (checkLine (build_output s)).has_summary = true ∧
    (checkLine (build_output s)).has_causes = true ∧
    (checkLine (build_output s)).has_recs = true ∧
    (checkLine (build_output s)).has_conf = true ∧
    lineOk (build_output s) = true := by
  refine ⟨pyIn_summary s, pyIn_causes s, pyIn_recs s, pyIn_conf s, ?_⟩
  unfold lineOk checkLine
  simp only [pyIn_summary s, pyIn_causes s, pyIn_recs s, pyIn_conf s]
  rfl

theorem validateLoop_spec (outs : List String) (acc : Bool) :
    (validateLoop outs acc).1 = outs.map checkLine ∧
    (validateLoop outs acc).2 = (acc && outs.all (fun out => lineOk out)) := by
  induction outs generalizing acc with
  | nil => simp [validateLoop]
  | cons o rest ih =>
    refine ⟨?_, ?_⟩
    · show checkLine o :: (validateLoop rest (if lineOk o then acc else false)).1 = _
      rw [(ih (if lineOk o then acc else false)).1, List.map_cons]
    · show (validateLoop rest (if lineOk o then acc else false)).2 = _
      rw [(ih (if lineOk o then acc else false)).2]
      cases h : lineOk o <;> cases acc <;> simp [h]

/-- C7: the validation pass is non-fatal on a marker mismatch — every
line receives its per-line result, a failing line does not stop the
remaining lines from being checked — and the aggregate verdict is true
exactly when every line passes the four-marker check. -/
theorem validator_nonfatal (outs : List String) :
    (validateOutputs outs).1.length = outs.length ∧
    (∀ i, ∀ hi : i < outs.length,
      (validateOutputs outs).1[i]? = some (checkLine outs[i])) ∧
    ((validateOutputs outs).2 = true ↔ ∀ out ∈ outs, lineOk out = true) := by
  have h := validateLoop_spec outs true
  unfold validateOutputs
  refine ⟨by rw [h.1]; simp, ?_, ?_⟩
  · intro i hi
    rw [h.1]
    simp [List.getElem?_map, List.getElem?_eq_getElem hi]
  · rw [h.2]
    simp [List.all_eq_true]

/-- Witness for C7: a two-line file whose second line lacks the markers
is fully checked and makes the aggregate verdict false. -/
theorem validator_nonfatal_witness :
    (validateOutputs ["SUMMARY: s\nCAUSES:\n- c\nRECOMMENDATIONS:\n- r\nCONFIDENCE: low",
        "no markers here"]).1.length = 2 ∧
    (validateOutputs ["SUMMARY: s\nCAUSES:\n- c\nRECOMMENDATIONS:\n- r\nCONFIDENCE: low",
        "no markers here"]).1[1]? = some (checkLine "no markers here") ∧
    ((validateOutputs ["SUMMARY: s\nCAUSES:\n- c\nRECOMMENDATIONS:\n- r\nCONFIDENCE: low",
        "no markers here"]).2 = true ↔
      ∀ out ∈ ["SUMMARY: s\nCAUSES:\n- c\nRECOMMENDATIONS:\n- r\nCONFIDENCE: low",
        "no markers here"], lineOk out = true) ∧
    (validateOutputs ["SUMMARY: s\nCAUSES:\n- c\nRECOMMENDATIONS:\n- r\nCONFIDENCE: low",
        "no markers here"]).2 = false :=
  ⟨(validator_nonfatal _).1, (validator_nonfatal _).2.1 1 (by decide),
    (validator_nonfatal _).2.2, by decide⟩

/-! No-newline facts about the serialized lines: every newline of a
field value is escaped to the two characters `\` `n`, so an emitted
line holds no raw newline. -/

theorem hexDig_ne_newline (n : Nat) : hexDig n ≠ '\n' := by
  unfold hexDig
  split <;> decide

theorem escapeChar_no_newline (c : Char) : '\n' ∉ escapeChar c := by
  unfold escapeChar
  split_ifs with h1 h2 h3 h4 h5 h6 h7 h8
  · decide
  · decide
  · intro hm
    rw [List.mem_singleton] at hm
    rw [← hm] at h3
    exact absurd h3 (by decide)
  · decide
  · decide
  · decide
  · decide
  · decide
  · intro hm
    simp only [hex4, List.mem_cons, List.not_mem_nil, or_false] at hm
    rcases hm with he | he | he | he | he | he
    · exact absurd he (by decide)
    · exact absurd he (by decide)
    · exact hexDig_ne_newline _ he.symm
    · exact hexDig_ne_newline _ he.symm
    · exact hexDig_ne_newline _ he.symm
    · exact hexDig_ne_newline _ he.symm

theorem escListChars_no_newline (cs : List Char) : '\n' ∉ escListChars cs := by
  induction cs with
  | nil => simp [escListChars]
  | cons c rest ih =>
    simp only [escListChars, List.mem_append]
    rintro (h | h)
    · exact escapeChar_no_newline c h
    · exact ih h

theorem noNL_append {a b : String} (ha : '\n' ∉ a.data) (hb : '\n' ∉ b.data) :
    '\n' ∉ (a ++ b).data := by
  rw [String.data_append]
  intro h
  rcases List.mem_append.mp h with h | h
  · exact ha h
  · exact hb h

theorem noNL_jsonQuote (s : String) : '\n' ∉ (jsonQuote s).data := by
  unfold jsonQuote
  refine noNL_append (noNL_append (by decide) ?_) (by decide)
  exact escListChars_no_newline s.data

theorem noNL_jsonEncodeExample (e : TrainingExample) :
    '\n' ∉ (jsonEncodeExample e).data := by
  unfold jsonEncodeExample
  repeat' apply noNL_append
  all_goals first
    | exact escListChars_no_newline _
    | exact noNL_jsonQuote _
    | decide

theorem splitOnChar_fileContents (corpus : List AnomalyRecord) :
    splitOnChar '\n' (fileContents corpus).data =
      corpus.map (fun s => (jsonEncodeExample (makeExample s)).data) ++ [[]] := by
  induction corpus with
  | nil => rfl
  | cons s rest ih =>
    show splitOnChar '\n'
      ((jsonEncodeExample (makeExample s) ++ "\n" ++ fileContents rest)).data = _
    have e : (jsonEncodeExample (makeExample s) ++ "\n" ++ fileContents rest).data =
        (jsonEncodeExample (makeExample s)).data ++ '\n' :: (fileContents rest).data := by
      simp [String.data_append]
    rw [e, splitOnChar_append_cons _ (noNL_jsonEncodeExample (makeExample s)), ih]
    rfl

/-- C6: for every corpus the generated file consists of exactly one
newline-terminated line per record, and the Nth line is the serialized
training example of the Nth record, in corpus order.  Splitting the
file at every newline yields the serialized records followed by one
empty tail segment coming from the final line's terminator. -/
theorem fileContents_line_per_record (corpus : List AnomalyRecord) :
    linesOf (fileContents corpus) =
      corpus.map (fun s => jsonEncodeExample (makeExample s)) ++ [""] ∧
    (linesOf (fileContents corpus)).length = corpus.length + 1 ∧
    (∀ n, ∀ hn : n < corpus.length,
      (linesOf (fileContents corpus))[n]? =
        some (jsonEncodeExample (makeExample corpus[n]))) := by
  have h1 : linesOf (fileContents corpus) =
      corpus.map (fun s => jsonEncodeExample (makeExample s)) ++ [""] := by
    rw [linesOf, splitOnChar_fileContents corpus]
    rw [List.map_append, List.map_map]
    rfl
  refine ⟨h1, by rw [h1]; simp, ?_⟩
  intro n hn
  rw [h1, List.getElem?_append, if_pos (by simpa using hn)]
  simp [List.getElem?_map, List.getElem?_eq_getElem hn]

/-- Witness for C6 on a one-record corpus. -/
theorem fileContents_line_per_record_witness :
    linesOf (fileContents [sampleRecord]) =
      [sampleRecord].map (fun s => jsonEncodeExample (makeExample s)) ++ [""] ∧
    (linesOf (fileContents [sampleRecord])).length = 1 + 1 ∧
    (linesOf (fileContents [sampleRecord]))[0]? =
      some (jsonEncodeExample (makeExample sampleRecord)) :=
  ⟨(fileContents_line_per_record [sampleRecord]).1,
    (fileContents_line_per_record [sampleRecord]).2.1,
    (fileContents_line_per_record [sampleRecord]).2.2 0 (by decide)⟩

/-- The data the prompt renderer reads from a record. -/
def promptFields (s : AnomalyRecord) :
    String × String × String × String × String × String × Int × String ×
      List (String × JVal) :=
  (s.service, s.operation, s.duration, s.expected_mean, s.expected_std,
    s.deviation, s.severity, s.severity_name, s.attributes)

/-- The data the response renderer reads from a record. -/
def responseFields (s : AnomalyRecord) :
    String × List String × List String × String :=
  (s.summary, s.causes, s.recommendations, s.confidence)

theorem build_instruction_congr {s t : AnomalyRecord}
    (h : promptFields s = promptFields t) :
    build_instruction s = build_instruction t := by
  unfold promptFields at h
  simp only [Prod.mk.injEq] at h
  obtain ⟨h1, h2, h3, h4, h5, h6, h7, h8, h9⟩ := h
  unfold build_instruction
  rw [h1, h2, h3, h4, h5, h6, h7, h8, h9]

theorem build_output_congr {s t : AnomalyRecord}
    (h : responseFields s = responseFields t) :
    build_output s = build_output t := by
  unfold responseFields at h
  simp only [Prod.mk.injEq] at h
  obtain ⟨h1, h2, h3, h4⟩ := h
  unfold build_output
  rw [h1, h2, h3, h4]

/-- C10: noninterference between the two renderers' inputs — records
agreeing on the prompt-side fields get identical instructions no matter
how the response-side fields differ, and records agreeing on the
response-side fields get identical outputs no matter how the other
fields differ. -/
theorem renderers_noninterference (s t : AnomalyRecord) :
    (promptFields s = promptFields t → build_instruction s = build_instruction t) ∧
    (responseFields s = responseFields t → build_output s = build_output t) :=
  ⟨build_instruction_congr, build_output_congr⟩

/-- Record agreeing with `sampleRecord` on the prompt fields only. -/
def sampleRecordB : AnomalyRecord :=
  { sampleRecord with
    summary := "different summary",
    causes := ["x1", "x2", "x3"], recommendations := ["y1", "y2"],
    confidence := "low" }

/-- Record agreeing with `sampleRecord` on the response fields only. -/
def sampleRecordC : AnomalyRecord :=
  { sampleRecord with
    service := "other-svc", operation := "other-op",
    duration := "99.9", expected_mean := "9.0", expected_std := "9.5",
    deviation := "8.8", severity := 1, severity_name := "Critical",
    attributes := [("q", JVal.int 7)] }

/-- Witness for C10: concrete record pairs differing only in the
fields the respective renderer does not read. -/
theorem renderers_noninterference_witness :
    build_instruction sampleRecord = build_instruction sampleRecordB ∧
    build_output sampleRecord = build_output sampleRecordC :=
  ⟨(renderers_noninterference sampleRecord sampleRecordB).1 rfl,
    (renderers_noninterference sampleRecord sampleRecordC).2 rfl⟩

theorem genLoop_fst (corpus : List AnomalyRecord) (g : Nat) :
    (genLoop corpus g).1 = fileContents corpus := by
  induction corpus with
  | nil => rfl
  | cons s rest ih =>
    show jsonEncodeExample (makeExample s) ++ "\n" ++ (genLoop rest g).1 = _
    rw [ih]
    rfl

/-- C9: the pipeline is deterministic — the file bytes, the rendered
instructions and the rendered outputs of a run depend only on the
corpus, not on the ambient state (modelled by the threaded seed), so
two runs on the same corpus agree on every observable. -/
theorem pipeline_deterministic (corpus : List AnomalyRecord) (g1 g2 : Nat) :
    (runPipeline corpus g1).file = (runPipeline corpus g2).file ∧
    (runPipeline corpus g1).instructions = (runPipeline corpus g2).instructions ∧
    (runPipeline corpus g1).outputs = (runPipeline corpus g2).outputs ∧
    (runPipeline corpus g1).file = fileContents corpus := by
  refine ⟨?_, rfl, rfl, ?_⟩
  · show (genLoop corpus g1).1 = (genLoop corpus g2).1
    rw [genLoop_fst, genLoop_fst]
  · show (genLoop corpus g1).1 = fileContents corpus
    rw [genLoop_fst]

set_option maxHeartbeats 2000000 in
/-- C8: a record missing any field a renderer requires makes that
renderer raise (the `Option` models the dict `KeyError`) rather than
substitute a default — the optional renderer succeeds exactly when all
its required keys are present — and on a fully populated record each
renderer succeeds and returns exactly the pure renderer's string, with
no other error path. -/
theorem renderers_missing_field (p : PartialRecord) (r : AnomalyRecord) :
    ((buildInstructionOpt p).isSome ↔
      (p.service.isSome ∧ p.operation.isSome ∧ p.duration.isSome ∧
        p.expected_mean.isSome ∧ p.expected_std.isSome ∧ p.deviation.isSome ∧
        p.severity.isSome ∧ p.severity_name.isSome ∧ p.attributes.isSome)) ∧
    ((buildOutputOpt p).isSome ↔
      (p.summary.isSome ∧ p.causes.isSome ∧ p.recommendations.isSome ∧
        p.confidence.isSome)) ∧
    buildInstructionOpt (toPartial r) = some (build_instruction r) ∧
    buildOutputOpt (toPartial r) = some (build_output r) := by
  obtain ⟨os, oo, od, om, ost, odv, osv, osn, oa, osum, oc, orc, ocf⟩ := p
  refine ⟨?_, ?_, rfl, rfl⟩
  · rcases os with _ | vs <;> rcases oo with _ | vo <;> rcases od with _ | vd <;>
      rcases om with _ | vm <;> rcases ost with _ | vst <;> rcases odv with _ | vdv <;>
      rcases osv with _ | vsv <;> rcases osn with _ | vsn <;> rcases oa with _ | va <;>
      simp [buildInstructionOpt, Option.bind]
  · rcases osum with _ | v1 <;> rcases oc with _ | v2 <;> rcases orc with _ | v3 <;>
      rcases ocf with _ | v4 <;> simp [buildOutputOpt, Option.bind]

/-! Fixed framing segments of the instruction template: everything in
the prompt that does not come from the record. -/

def instrSeg0 : String :=
  "You are an expert in distributed systems and observability. Analyze this performance anomaly:\n\n## Anomaly Details\n- Service: "

def instrSeg1 : String := "\n- Operation: "

def instrSeg2 : String := "\n- Duration: "

def instrSeg3 : String := "ms (expected: "

def instrSeg4 : String := "ms ± "

def instrSeg5 : String := "ms)\n- Deviation: "

def instrSeg6 : String := "σ (standard deviations from mean)\n- Severity: SEV"

def instrSeg7 : String := " ("

def instrSeg8 : String := ")\n\n## Span Attributes\n"

def instrSeg9 : String :=
  "\n\nBased on the trace data AND correlated metrics, provide:\n1. A brief summary (1-2 sentences) of what likely caused this anomaly\n2. 2-3 possible root causes (consider resource utilization if metrics show issues)\n3. 2-3 actionable recommendations\n\nFormat your response as:\nSUMMARY: [your summary]\nCAUSES:\n- [cause 1]\n- [cause 2]\nRECOMMENDATIONS:\n- [recommendation 1]\n- [recommendation 2]\nCONFIDENCE: [low/medium/high]"

theorem digitChar_ne_newline (n : Nat) : digitChar n ≠ '\n' := by
  unfold digitChar
  split <;> decide

theorem natDigits_no_newline (n : Nat) : '\n' ∉ natDigits n := by
  induction n using Nat.strong_induction_on with
  | _ n ih =>
    rw [natDigits]
    split
    next hlt =>
      intro h
      exact digitChar_ne_newline n (List.mem_singleton.mp h).symm
    next hge =>
      intro h
      rcases List.mem_append.mp h with h | h
      · exact ih (n / 10) (Nat.div_lt_self (by omega) (by omega)) h
      · exact digitChar_ne_newline _ (List.mem_singleton.mp h).symm

theorem pyIntStr_no_newline (i : Int) : '\n' ∉ (pyIntStr i).data := by
  unfold pyIntStr
  split
  · exact noNL_append (by decide) (natDigits_no_newline _)
  · exact natDigits_no_newline _

theorem escapeCharA_no_newline (c : Char) : '\n' ∉ escapeCharA c := by
  unfold escapeCharA
  split_ifs with h1 h2 h3 h4 h5 h6 h7 h8 h9
  · decide
  · decide
  · intro hm
    rw [List.mem_singleton] at hm
    rw [← hm] at h3
    exact absurd h3 (by decide)
  · decide
  · decide
  · decide
  · decide
  · decide
  · intro hm
    simp only [hex4, List.mem_cons, List.not_mem_nil, or_false] at hm
    rcases hm with he | he | he | he | he | he
    · exact absurd he (by decide)
    · exact absurd he (by decide)
    all_goals exact hexDig_ne_newline _ he.symm
  · intro hm
    rcases List.mem_cons.mp hm with he | hm2
    · exact absurd he (by decide)
    · rcases List.mem_cons.mp hm2 with he | hm3
      · exact absurd he (by decide)
      · rcases List.mem_append.mp hm3 with hm4 | hm4
        · simp only [hex4, List.mem_cons, List.not_mem_nil, or_false] at hm4
          rcases hm4 with he | he | he | he
          all_goals exact hexDig_ne_newline _ he.symm
        · rcases List.mem_cons.mp hm4 with he | hm5
          · exact absurd he (by decide)
          · rcases List.mem_cons.mp hm5 with he | hm6
            · exact absurd he (by decide)
            · simp only [hex4, List.mem_cons, List.not_mem_nil, or_false] at hm6
              rcases hm6 with he | he | he | he
              all_goals exact hexDig_ne_newline _ he.symm

theorem escListCharsA_no_newline (cs : List Char) : '\n' ∉ escListCharsA cs := by
  induction cs with
  | nil => simp [escListCharsA]
  | cons c rest ih =>
    simp only [escListCharsA, List.mem_append]
    rintro (h | h)
    · exact escapeCharA_no_newline c h
    · exact ih h

theorem noNL_jsonQuoteA (s : String) : '\n' ∉ (jsonQuoteA s).data := by
  unfold jsonQuoteA
  exact noNL_append (noNL_append (by decide) (escListCharsA_no_newline s.data))
    (by decide)

theorem noNL_renderMember (kv : String × JVal) :
    '\n' ∉ (renderMember kv).data := by
  unfold renderMember
  refine noNL_append (noNL_append (noNL_jsonQuoteA kv.1) (by decide)) ?_
  rcases kv with ⟨k, v⟩
  cases v with
  | str s => exact noNL_jsonQuoteA s
  | int n => exact pyIntStr_no_newline n

/-- Lines produced by joining members with a comma and newline: every
member but the last gets a trailing comma, one member per line. -/
def commaJoinLines : List String → List String
  | [] => []
  | [m] => [m]
  | m :: m2 :: rest => (m ++ ",") :: commaJoinLines (m2 :: rest)

theorem splitOnChar_pyJoinComma (ms : List String) (hne : ms ≠ [])
    (hnl : ∀ m ∈ ms, '\n' ∉ m.data) (ys : List Char) :
    splitOnChar '\n' ((pyJoin ",\n" ms).data ++ '\n' :: ys) =
      (commaJoinLines ms).map String.data ++ splitOnChar '\n' ys := by
  induction ms with
  | nil => exact absurd rfl hne
  | cons m tail ih =>
    cases tail with
    | nil =>
      simp only [pyJoin, commaJoinLines, List.map]
      rw [splitOnChar_append_cons ys (hnl m (by simp))]
      rfl
    | cons m2 rest =>
      have hm : '\n' ∉ m.data := hnl m (by simp)
      have hrest : ∀ l ∈ m2 :: rest, '\n' ∉ l.data := fun l hl => hnl l (by simp [hl])
      simp only [pyJoin, commaJoinLines, String.data_append, List.map]
      have e : m.data ++ ",\n".data ++ (pyJoin ",\n" (m2 :: rest)).data ++ '\n' :: ys =
          (m.data ++ [',']) ++ '\n' ::
            ((pyJoin ",\n" (m2 :: rest)).data ++ '\n' :: ys) := by
        simp
      rw [e, splitOnChar_append_cons _ (by
        intro hmem
        rcases List.mem_append.mp hmem with h | h
        · exact hm h
        · exact absurd h (by decide)), ih (by simp) hrest]
      rfl

theorem linesOf_pyDumpsIndent2 (attrs : List (String × JVal)) (hne : attrs ≠ []) :
    linesOf (pyDumpsIndent2 attrs) =
      "\x7b" :: commaJoinLines (attrs.map (fun kv => "  " ++ renderMember kv)) ++
        ["\x7d"] := by
  match attrs, hne with
  | kv :: rest, _ =>
    unfold linesOf pyDumpsIndent2
    have e : (("\x7b\n" ++
        pyJoin ",\n" ((kv :: rest).map (fun kv => "  " ++ renderMember kv))) ++
          "\n\x7d").data =
        ['\x7b'] ++ '\n' ::
          ((pyJoin ",\n" ((kv :: rest).map (fun kv => "  " ++ renderMember kv))).data ++
            '\n' :: ['\x7d']) := by
      simp [String.data_append]
    rw [e, splitOnChar_append_cons _ (by decide),
      splitOnChar_pyJoinComma _ (by simp)
        (by
          intro m hm
          rcases List.mem_map.mp hm with ⟨kv2, -, rfl⟩
          exact noNL_append (by decide) (noNL_renderMember kv2)) ['\x7d'],
      splitOnChar_eq_single (by decide)]
    simp only [List.map_append, List.map_cons, List.map_map, List.map_nil]
    have hid : ∀ L : List String, List.map (String.mk ∘ String.data) L = L :=
      fun L => List.map_id _
    rw [hid]
    rfl

/-- C5: the instruction renderer is the fixed prompt template with the
record's data interpolated verbatim — service and operation as is, the
duration line with expected mean and expected std inline, the deviation
followed by the σ unit, the severity as the concatenation
`SEV<level> (<name>)`, and the attributes block — so that any two
records agreeing on those fields receive the identical instruction, and
the attributes mapping renders as 2-space-indented lines in insertion
order between the braces. -/
theorem build_instruction_template (s t : AnomalyRecord) :
    build_instruction s =
      instrSeg0 ++ s.service ++ instrSeg1 ++ s.operation ++ instrSeg2 ++
        s.duration ++ instrSeg3 ++ s.expected_mean ++ instrSeg4 ++
        s.expected_std ++ instrSeg5 ++ s.deviation ++ instrSeg6 ++
        pyIntStr s.severity ++ instrSeg7 ++ s.severity_name ++ instrSeg8 ++
        pyDumpsIndent2 s.attributes ++ instrSeg9 ∧
    (promptFields s = promptFields t → build_instruction s = build_instruction t) ∧
    (s.attributes ≠ [] →
      linesOf (pyDumpsIndent2 s.attributes) =
        "\x7b" :: commaJoinLines (s.attributes.map (fun kv => "  " ++ renderMember kv)) ++
          ["\x7d"]) :=
  ⟨rfl, build_instruction_congr, linesOf_pyDumpsIndent2 s.attributes⟩

/-- Witness for C5 at concrete records: the template equation, the
framing invariance between two records agreeing on the prompt fields,
and the attributes block lines. -/
theorem build_instruction_template_witness :
    build_instruction sampleRecord =
      instrSeg0 ++ sampleRecord.service ++ instrSeg1 ++ sampleRecord.operation ++
        instrSeg2 ++ sampleRecord.duration ++ instrSeg3 ++
        sampleRecord.expected_mean ++ instrSeg4 ++ sampleRecord.expected_std ++
        instrSeg5 ++ sampleRecord.deviation ++ instrSeg6 ++
        pyIntStr sampleRecord.severity ++ instrSeg7 ++ sampleRecord.severity_name ++
        instrSeg8 ++ pyDumpsIndent2 sampleRecord.attributes ++ instrSeg9 ∧
    build_instruction sampleRecord = build_instruction sampleRecordB ∧
    linesOf (pyDumpsIndent2 sampleRecord.attributes) =
      "\x7b" :: commaJoinLines (sampleRecord.attributes.map
        (fun kv => "  " ++ renderMember kv)) ++ ["\x7d"] :=
  ⟨(build_instruction_template sampleRecord sampleRecordB).1,
    (build_instruction_template sampleRecord sampleRecordB).2.1 rfl,
    (build_instruction_template sampleRecord sampleRecordB).2.2 (by decide)⟩

/-! Round trip of the JSON string encoding: the decoder recovers
exactly the characters the escaper encoded. -/

theorem hexVal_hexDig (n : Nat) (h : n < 16) : hexVal (hexDig n) = some n := by
  have hb : ∀ m, m < 16 → hexVal (hexDig m) = some m := by decide
  exact hb n h

theorem parseStrBody_escape (cs rest : List Char) :
    parseStrBody (escListChars cs ++ '"' :: rest) = some (cs, rest) := by
  induction cs with
  | nil =>
    rw [show escListChars [] = [] from rfl, List.nil_append, parseStrBody.eq_def]
    simp
  | cons c cs ih =>
    rw [show escListChars (c :: cs) = escapeChar c ++ escListChars cs from rfl,
      List.append_assoc]
    unfold escapeChar
    split_ifs with h1 h2 h3 h4 h5 h6 h7 h8
    · subst h1
      simp only [List.cons_append, List.nil_append]
      rw [parseStrBody.eq_def]
      simp [ih]
    · subst h2
      simp only [List.cons_append, List.nil_append]
      rw [parseStrBody.eq_def]
      simp [ih]
    · simp only [List.cons_append, List.nil_append]
      rw [parseStrBody.eq_def]
      simp [h1, h2, ih]
      omega
    · subst h4
      simp only [List.cons_append, List.nil_append]
      rw [parseStrBody.eq_def]
      simp [ih]
    · subst h5
      simp only [List.cons_append, List.nil_append]
      rw [parseStrBody.eq_def]
      simp [ih]
    · subst h6
      simp only [List.cons_append, List.nil_append]
      rw [parseStrBody.eq_def]
      simp [ih]
    · subst h7
      simp only [List.cons_append, List.nil_append]
      rw [parseStrBody.eq_def]
      simp [ih]
    · subst h8
      simp only [List.cons_append, List.nil_append]
      rw [parseStrBody.eq_def]
      simp [ih]
    · simp only [hex4, List.cons_append, List.nil_append]
      rw [parseStrBody.eq_def]
      have hlt : c.toNat < 32 := by omega
      have e1 : hexVal (hexDig (c.toNat / 4096 % 16)) = some (c.toNat / 4096 % 16) :=
        hexVal_hexDig _ (by omega)
      have e2 : hexVal (hexDig (c.toNat / 256 % 16)) = some (c.toNat / 256 % 16) :=
        hexVal_hexDig _ (by omega)
      have e3 : hexVal (hexDig (c.toNat / 16 % 16)) = some (c.toNat / 16 % 16) :=
        hexVal_hexDig _ (by omega)
      have e4 : hexVal (hexDig (c.toNat % 16)) = some (c.toNat % 16) :=
        hexVal_hexDig _ (by omega)
      have hcode : c.toNat / 4096 % 16 * 4096 + c.toNat / 256 % 16 * 256 +
          c.toNat / 16 % 16 * 16 + c.toNat % 16 = c.toNat := by omega
      simp only [e1, e2, e3, e4, hcode]
      rw [if_pos (Or.inl (by omega))]
      simp [ih, Char.ofNat_toNat]

theorem parseJStr_quote (s : String) (rest : List Char) :
    parseJStr ((jsonQuote s).data ++ rest) = some (s.data, rest) := by
  have e : (jsonQuote s).data ++ rest =
      '"' :: (escListChars s.data ++ '"' :: rest) := by
    unfold jsonQuote
    simp [String.data_append]
  rw [e]
  unfold parseJStr
  simp [parseStrBody_escape]

theorem skipWs_not_ws {c : Char} (h : isJsonWs c = false) (l : List Char) :
    skipWs (c :: l) = c :: l := by
  conv_lhs => rw [skipWs.eq_def]
  simp [h]

theorem skipWs_space (l : List Char) : skipWs (' ' :: l) = skipWs l := by
  conv_lhs => rw [skipWs.eq_def]
  simp [isJsonWs]

theorem data_jsonQuote_head (s : String) :
    (jsonQuote s).data = '"' :: (escListChars s.data ++ ['"']) := by
  unfold jsonQuote
  simp [String.data_append]

theorem skipWs_quote_head (s : String) (rest : List Char) :
    skipWs ((jsonQuote s).data ++ rest) = (jsonQuote s).data ++ rest := by
  rw [data_jsonQuote_head, List.cons_append]
  exact skipWs_not_ws (by decide) _

theorem parseMember_encode (key v : String) (rest : List Char) :
    parseMember key ((jsonQuote key).data ++ ':' :: ' ' :: ((jsonQuote v).data ++ rest)) =
      some (v, rest) := by
  unfold parseMember
  have w1 : skipWs (':' :: ' ' :: ((jsonQuote v).data ++ rest)) =
      ':' :: ' ' :: ((jsonQuote v).data ++ rest) := skipWs_not_ws (by decide) _
  have w2 : skipWs (' ' :: ((jsonQuote v).data ++ rest)) =
      (jsonQuote v).data ++ rest := by
    rw [skipWs_space]
    exact skipWs_quote_head v rest
  simp [w1, w2, skipWs_quote_head, parseJStr_quote, expectChar, mk_data]

theorem parseMember_space (key : String) (l : List Char) :
    parseMember key (' ' :: l) = parseMember key l := by
  unfold parseMember
  rw [skipWs_space]

theorem decode_encode_aux (e : TrainingExample) (ts : List Char)
    (hts : skipWs ts = []) (x : String)
    (hx : x.data = (jsonEncodeExample e).data ++ ts) :
    decodeExampleLine x = some e := by
  unfold decodeExampleLine
  have hdata : x.data = '\x7b' :: ((jsonQuote "instruction").data ++ ':' :: ' ' ::
      ((jsonQuote e.instruction).data ++ ',' :: ' ' ::
        ((jsonQuote "input").data ++ ':' :: ' ' ::
          ((jsonQuote e.input).data ++ ',' :: ' ' ::
            ((jsonQuote "output").data ++ ':' :: ' ' ::
              ((jsonQuote e.output).data ++ '\x7d' :: ts)))))) := by
    rw [hx]
    unfold jsonEncodeExample
    simp [String.data_append]
  rw [hdata, skipWs_not_ws (by decide) _]
  simp [expectChar, parseMember_encode, parseMember_space, hts,
    skipWs_not_ws (show isJsonWs ',' = false by decide),
    skipWs_not_ws (show isJsonWs '\x7d' = false by decide)]

/-- C4: one emitted line, JSON-decoded, gives back exactly the training
example it serialized — instruction, input and output byte-identical —
both for the bare line and for the line as read back with its trailing
newline; the example built for a record always has the empty input
field; and the serialized object carries its three members in the order
instruction, input, output. -/
theorem example_serialization_roundtrip (e : TrainingExample) (r : AnomalyRecord) :
    decodeExampleLine (jsonEncodeExample e) = some e ∧
    decodeExampleLine (jsonEncodeExample e ++ "\n") = some e ∧
    (makeExample r).input = "" ∧
    jsonEncodeExample e =
      "\x7b" ++ jsonQuote "instruction" ++ ": " ++ jsonQuote e.instruction ++
        ", " ++ jsonQuote "input" ++ ": " ++ jsonQuote e.input ++
        ", " ++ jsonQuote "output" ++ ": " ++ jsonQuote e.output ++ "\x7d" :=
  ⟨decode_encode_aux e [] rfl _ (by simp),
    decode_encode_aux e ['\n'] rfl _ (by simp [String.data_append]),
    rfl, rfl⟩
